import Mathlib

/-!
Verification development for the Workers AI client
(`api/app/clients/WorkersAIClient.js`, plus the unnamed second variant file
of the same class): a shallow embedding of the endpoint-shape normalization
logic, the model-listing operation, and the streaming / non-streaming chat
completion protocol handling, together with theorems settling the frozen
claims about the spec.

Conventions of the embedding:
* JavaScript values that flow through the client are modelled by `Json`
  (JSON-representable values); the JS `undefined` arising from a failed
  property access is modelled by `Option Json` with `none` for `undefined`.
* The platform pieces the client calls into — the WHATWG `URL` parser,
  `JSON.parse`, the HTTP transport (`axios`) and the server-push event
  source — are external collaborators; they are modelled as explicit
  parameters (oracles) or as small faithful functions, as documented at
  each definition.
* Machine-level effects that cannot influence any claim (header contents,
  the pacing `sleep`, log text) are not modelled, except that we record
  *whether* the failure diagnostic was logged and *whether* a network
  request was issued, since the claims speak about those facts.
-/

namespace WorkersAI

/-- JSON-representable JavaScript values (the payloads and response bodies
the client manipulates). -/
inductive Json where
  | null
  | bool (b : Bool)
  | num (n : Int)
  | str (s : String)
  | arr (elems : List Json)
  | obj (fields : List (String × Json))
deriving Repr

mutual
/-- Decidable equality for `Json` (the derive handler does not support the
nested `List` occurrences, so it is spelled out). -/
def Json.decEq : (a b : Json) → Decidable (a = b)
  | .null, .null => .isTrue rfl
  | .null, .bool _ => .isFalse (fun h => Json.noConfusion h)
  | .null, .num _ => .isFalse (fun h => Json.noConfusion h)
  | .null, .str _ => .isFalse (fun h => Json.noConfusion h)
  | .null, .arr _ => .isFalse (fun h => Json.noConfusion h)
  | .null, .obj _ => .isFalse (fun h => Json.noConfusion h)
  | .bool _, .null => .isFalse (fun h => Json.noConfusion h)
  | .bool a, .bool b =>
    if h : a = b then .isTrue (by rw [h]) else .isFalse (fun he => h (Json.bool.inj he))
  | .bool _, .num _ => .isFalse (fun h => Json.noConfusion h)
  | .bool _, .str _ => .isFalse (fun h => Json.noConfusion h)
  | .bool _, .arr _ => .isFalse (fun h => Json.noConfusion h)
  | .bool _, .obj _ => .isFalse (fun h => Json.noConfusion h)
  | .num _, .null => .isFalse (fun h => Json.noConfusion h)
  | .num _, .bool _ => .isFalse (fun h => Json.noConfusion h)
  | .num a, .num b =>
    if h : a = b then .isTrue (by rw [h]) else .isFalse (fun he => h (Json.num.inj he))
  | .num _, .str _ => .isFalse (fun h => Json.noConfusion h)
  | .num _, .arr _ => .isFalse (fun h => Json.noConfusion h)
  | .num _, .obj _ => .isFalse (fun h => Json.noConfusion h)
  | .str _, .null => .isFalse (fun h => Json.noConfusion h)
  | .str _, .bool _ => .isFalse (fun h => Json.noConfusion h)
  | .str _, .num _ => .isFalse (fun h => Json.noConfusion h)
  | .str a, .str b =>
    if h : a = b then .isTrue (by rw [h]) else .isFalse (fun he => h (Json.str.inj he))
  | .str _, .arr _ => .isFalse (fun h => Json.noConfusion h)
  | .str _, .obj _ => .isFalse (fun h => Json.noConfusion h)
  | .arr _, .null => .isFalse (fun h => Json.noConfusion h)
  | .arr _, .bool _ => .isFalse (fun h => Json.noConfusion h)
  | .arr _, .num _ => .isFalse (fun h => Json.noConfusion h)
  | .arr _, .str _ => .isFalse (fun h => Json.noConfusion h)
  | .arr xs, .arr ys =>
    match Json.decEqList xs ys with
    | .isTrue h => .isTrue (by rw [h])
    | .isFalse h => .isFalse (fun he => h (Json.arr.inj he))
  | .arr _, .obj _ => .isFalse (fun h => Json.noConfusion h)
  | .obj _, .null => .isFalse (fun h => Json.noConfusion h)
  | .obj _, .bool _ => .isFalse (fun h => Json.noConfusion h)
  | .obj _, .num _ => .isFalse (fun h => Json.noConfusion h)
  | .obj _, .str _ => .isFalse (fun h => Json.noConfusion h)
  | .obj _, .arr _ => .isFalse (fun h => Json.noConfusion h)
  | .obj xs, .obj ys =>
    match Json.decEqFields xs ys with
    | .isTrue h => .isTrue (by rw [h])
    | .isFalse h => .isFalse (fun he => h (Json.obj.inj he))

/-- Decidable equality for lists of `Json` values. -/
def Json.decEqList : (xs ys : List Json) → Decidable (xs = ys)
  | [], [] => .isTrue rfl
  | [], _ :: _ => .isFalse (fun h => List.noConfusion h)
  | _ :: _, [] => .isFalse (fun h => List.noConfusion h)
  | x :: xs, y :: ys =>
    match Json.decEq x y, Json.decEqList xs ys with
    | .isTrue h1, .isTrue h2 => .isTrue (by rw [h1, h2])
    | .isFalse h1, _ => .isFalse (fun he => h1 (List.cons.inj he).1)
    | _, .isFalse h2 => .isFalse (fun he => h2 (List.cons.inj he).2)

/-- Decidable equality for `Json` object field lists. -/
def Json.decEqFields : (xs ys : List (String × Json)) → Decidable (xs = ys)
  | [], [] => .isTrue rfl
  | [], _ :: _ => .isFalse (fun h => List.noConfusion h)
  | _ :: _, [] => .isFalse (fun h => List.noConfusion h)
  | (k, v) :: xs, (l, w) :: ys =>
    if hk : k = l then
      match Json.decEq v w, Json.decEqFields xs ys with
      | .isTrue h1, .isTrue h2 => .isTrue (by rw [hk, h1, h2])
      | .isFalse h1, _ =>
        .isFalse (fun he => h1 (congrArg Prod.snd (List.cons.inj he).1))
      | _, .isFalse h2 => .isFalse (fun he => h2 (List.cons.inj he).2)
    else .isFalse (fun he => hk (congrArg Prod.fst (List.cons.inj he).1))
end

instance : DecidableEq Json := Json.decEq

/-- JavaScript property access `v.k` for the values of `Json`, on a value
that is *not* `null`/`undefined`: yields `none` for `undefined` (absent key,
or property access on a primitive), `some` for a present field.  Access on
`null`/`undefined` itself throws in JS and is handled at each use site. -/
def jsGet : Json → String → Option Json
  | .obj fields, k => fields.lookup k
  | _, _ => none

/-- JavaScript truthiness of a `Json` value (`if (v)`). -/
def jsTruthy : Json → Bool
  | .null => false
  | .bool b => b
  | .num n => n != 0
  | .str s => s != ""
  | .arr _ => true
  | .obj _ => true

mutual
/-- JavaScript string coercion `String(v)` restricted to JSON-representable
values (used for the `intermediateReply += msg` concatenation). -/
def jsToString : Json → String
  | .null => "null"
  | .bool b => cond b "true" "false"
  | .num n => toString n
  | .str s => s
  | .arr xs => String.intercalate "," (jsToStringList xs)
  | .obj _ => "[object Object]"

/-- Elementwise coercion for arrays; a `null` element coerces to the empty
string inside `Array.prototype.join`. -/
def jsToStringList : List Json → List String
  | [] => []
  | .null :: xs => "" :: jsToStringList xs
  | x :: xs => jsToString x :: jsToStringList xs
end

/-- Coercion of a possibly-`undefined` value, as in `'' + msg`. -/
def jsOptToString : Option Json → String
  | none => "undefined"
  | some j => jsToString j

/-- Splitting accumulator for `jsSplit`. -/
def jsSplitAux (sep : Char) (acc : List Char) : List Char → List String
  | [] => [String.mk acc.reverse]
  | c :: cs =>
    if c = sep then String.mk acc.reverse :: jsSplitAux sep [] cs
    else jsSplitAux sep (c :: acc) cs

/-- JavaScript `s.split(sep)` for a one-character separator (the only form
the client uses). -/
def jsSplit (s : String) (sep : Char) : List String :=
  jsSplitAux sep [] s.data

/-- JavaScript `s.endsWith(suffix)`. -/
def jsEndsWith (s suffix : String) : Bool :=
  suffix.data.isSuffixOf s.data

/-- Scans for the first occurrence of the literal `://`, returning the text
before it and the text after it. -/
def findSchemeSep (acc : List Char) : List Char → Option (List Char × List Char)
  | ':' :: '/' :: '/' :: rest => some (acc.reverse, rest)
  | c :: cs => findSchemeSep (c :: acc) cs
  | [] => none

/-- The parts of a parsed WHATWG `URL` object the client reads or writes:
`protocol` (without the `:`), `hostname`, and `pathname`. -/
structure URL where
  scheme : String
  hostname : String
  pathname : String
deriving DecidableEq, Repr

/-- Serialization `url.toString()` for the URL fragment we model. -/
def URL.toString (u : URL) : String :=
  u.scheme ++ "://" ++ u.hostname ++ u.pathname

/-- Modelled from the platform: the WHATWG URL parser (`new URL(s)`), an
external collaborator of the client, restricted to absolute addresses of
the shape `scheme://host/path` (no userinfo, port, query or fragment —
none of which the client's addresses use).  `none` models the `TypeError`
thrown on a malformed address.  An empty path serializes as `/`, as in the
WHATWG standard. -/
def parseURL (s : String) : Option URL :=
  match findSchemeSep [] s.data with
  | none => none
  | some (schemeChars, restChars) =>
    if schemeChars = [] then none
    else
      match jsSplitAux '/' [] restChars with
      | [] => none
      | host :: pathParts =>
        if host = "" then none
        else
          some ⟨String.mk schemeChars, host,
                if pathParts = [] then "/"
                else "/" ++ String.intercalate "/" pathParts⟩

/-- `formatBaseURL` from `WorkersAIClient.js`: parses the base URL and
rewrites its pathname by hostname.  For the direct provider host the path
keeps only its first 6 `/`-separated pieces; for the gateway host it keeps
the first 4 and appends the literal `workers-ai` segment; any other
hostname leaves the URL untouched.  `none` models the parse `TypeError`
propagating to the caller. -/
def formatBaseURL (baseURL : String) : Option String :=
  match parseURL baseURL with
  | none => none
  | some parsedURL =>
    let parsedURL :=
      if parsedURL.hostname = "api.cloudflare.com" then
        { parsedURL with
          pathname := String.intercalate "/" ((jsSplit parsedURL.pathname '/').take 6) }
      else if parsedURL.hostname = "gateway.ai.cloudflare.com" then
        { parsedURL with
          pathname := String.intercalate "/"
            ((jsSplit parsedURL.pathname '/').take 4 ++ ["workers-ai"]) }
      else parsedURL
    some parsedURL.toString

/-- The run address computed in the constructor:
`this.baseURL = formatBaseURL(baseURL) + '/run'`.  `none` models the
constructor throwing on a malformed base URL. -/
def resolvedRunAddress (baseURL : String) : Option String :=
  (formatBaseURL baseURL).map (· ++ "/run")

/-- What the HTTP transport (`axios`) reports for one request: either a
network-level failure (the request never produced an HTTP response), or an
HTTP response with a status code and a parsed JSON body.  A body that is
not JSON is reported by axios as its raw text, i.e. as a `Json.str`. -/
inductive NetOutcome where
  | transportError
  | response (status : Nat) (body : Json)

/-- Observable result of one `fetchModels` call: the returned list (each
entry is the `name` property of a kept model record, `none` when that
property is absent), whether an HTTP request was issued, and whether the
failure diagnostic was logged. -/
structure FetchResult where
  models : List (Option Json)
  io : Bool
  logged : Bool
deriving DecidableEq, Repr

/-- The filter `(m) => m.task.name === 'Text Generation'` over the `result`
array.  Reading `.name` off a missing or `null` `task` throws a
`TypeError`, modelled by `.error ()`. -/
def filterTaskTG : List Json → Except Unit (List Json)
  | [] => .ok []
  | m :: ms =>
    match jsGet m "task" with
    | none => .error ()
    | some .null => .error ()
    | some t =>
      match filterTaskTG ms with
      | .error e => .error e
      | .ok rest =>
        .ok (if jsGet t "name" = some (Json.str "Text Generation") then m :: rest else rest)

/-- `response.data.result.filter(...).map((m) => m.name)`: a missing,
`null` or non-array `result` makes `.filter` throw, modelled by
`.error ()`. -/
def extractModels (body : Json) : Except Unit (List (Option Json)) :=
  match jsGet body "result" with
  | some (.arr ms) =>
    match filterTaskTG ms with
    | .error e => .error e
    | .ok kept => .ok (kept.map (fun m => jsGet m "name"))
  | _ => .error ()

/-- The shared `axios.get` + filter + `catch` tail of both `fetchModels`
variants, from the request on: axios itself throws on a non-2xx status, a
transport error throws, and a malformed body makes the extraction throw;
every throw is caught, logged, and turned into the empty list. -/
def fetchFrom (net : String → NetOutcome) (endpoint : String) : FetchResult :=
  match net endpoint with
  | .transportError => ⟨[], true, true⟩
  | .response status body =>
    if status < 200 ∨ 300 ≤ status then ⟨[], true, true⟩
    else
      match extractModels body with
      | .error _ => ⟨[], true, true⟩
      | .ok ms => ⟨ms, true, false⟩

/-- The models-search address of `WorkersAIClient.js`:
`formatBaseURL(baseURL) + '/models/search'`. -/
def modelsEndpoint (baseURL : String) : Option String :=
  (formatBaseURL baseURL).map (· ++ "/models/search")

/-- `WorkersAIClient.fetchModels` from `WorkersAIClient.js`: empty
`baseURL` or `apiKey` returns `[]` with no I/O; otherwise the endpoint is
resolved through `formatBaseURL` (a parse failure is caught by the
surrounding `try`, logged, and yields `[]`), the request is issued and its
result filtered, with every failure caught, logged, and degraded to
`[]`. -/
def fetchModels (baseURL apiKey : String) (net : String → NetOutcome) : FetchResult :=
  if baseURL = "" ∨ apiKey = "" then ⟨[], false, false⟩
  else
    match modelsEndpoint baseURL with
    | none => ⟨[], false, true⟩
    | some endpoint => fetchFrom net endpoint

/-- Endpoint resolution of the unnamed variant file's `fetchModels`: the
hostname switch is inlined there, the direct-provider branch strips a
trailing `/v1` and appends `/models/search`, the gateway branch keeps the
first 4 path pieces and appends `workers-ai/models/search`, and the
`default` branch returns early with no address.  `.error ()` models the
URL parse throw; `.ok none` the early `return models`. -/
def part0Endpoint (baseURL : String) : Except Unit (Option String) :=
  match parseURL baseURL with
  | none => .error ()
  | some parsedURL =>
    if parsedURL.hostname = "api.cloudflare.com" then
      let trimmed :=
        if jsEndsWith parsedURL.pathname "/v1" then parsedURL.pathname.dropRight 3
        else parsedURL.pathname
      .ok (some (URL.toString { parsedURL with pathname := trimmed ++ "/models/search" }))
    else if parsedURL.hostname = "gateway.ai.cloudflare.com" then
      .ok (some (URL.toString
        { parsedURL with
          pathname := String.intercalate "/"
            ((jsSplit parsedURL.pathname '/').take 4 ++ ["workers-ai", "models", "search"]) }))
    else .ok none

/-- `WorkersAIClient.fetchModels` from the unnamed variant file: same
input validation and catch-all as the other variant, but with the inlined
endpoint switch whose `default` branch returns the empty list before any
request. -/
def fetchModelsPart0 (baseURL apiKey : String) (net : String → NetOutcome) : FetchResult :=
  if baseURL = "" ∨ apiKey = "" then ⟨[], false, false⟩
  else
    match part0Endpoint baseURL with
    | .error _ => ⟨[], false, true⟩
    | .ok none => ⟨[], false, false⟩
    | .ok (some endpoint) => fetchFrom net endpoint

/-- The fields of the chat payload the client itself reads; everything
else is passed through opaquely. -/
structure ChatPayload where
  model : String
  stream : Bool

/-- How a non-streaming `chatCompletion` call settles: resolution with the
value of `response.data.result.response` (possibly `undefined`), or
rejection with an error optionally carrying an HTTP status and a response
body. -/
inductive CompletionOutcome where
  | resolve (v : Option Json)
  | reject (status : Option Nat) (body : Option Json)
deriving DecidableEq, Repr

/-- `!response.data?.success` (negated): optional chaining makes a `null`
body falsy, a missing flag is falsy, otherwise JS truthiness applies. -/
def successFlag (body : Json) : Bool :=
  match body with
  | .null => false
  | b =>
    match jsGet b "success" with
    | some v => jsTruthy v
    | none => false

/-- The non-streaming tail of `chatCompletion`, as a function of the
transport's report for the single `axios.default.post`: axios throws on a
non-2xx status (its error carries the status and body); a 2xx response
with status other than 200 or a falsy `success` flag is turned into an
error carrying the status and body; otherwise the reply is read off
`response.data.result.response`, which throws a bare `TypeError` (no
status, no body) when `result` is missing or `null`. -/
def nonStreamHandle : NetOutcome → CompletionOutcome
  | .transportError => .reject none none
  | .response status body =>
    if status < 200 ∨ 300 ≤ status then .reject (some status) (some body)
    else if status ≠ 200 ∨ successFlag body = false then .reject (some status) (some body)
    else
      match jsGet body "result" with
      | none => .reject none none
      | some .null => .reject none none
      | some r => .resolve (jsGet r "response")

/-- One event delivered by the server-push stream, with the library's
defaults: `event` and `data` default to the empty string. -/
structure EventMessage where
  event : String
  data : String
deriving DecidableEq, Repr

/-- How the event stream terminates after its messages: a normal close, or
a stream-level error surfaced to `onerror`. -/
inductive StreamEnd where
  | close
  | errorEvt
deriving DecidableEq, Repr

/-- What the event source delivers for one streaming request: the HTTP
status at open (with the raw body text, read only when the status is not
200), the ordered data messages, and how the stream terminates. -/
structure StreamInput where
  status : Nat
  openBody : String
  messages : List EventMessage
  ending : StreamEnd
deriving DecidableEq, Repr

/-- Observable state of one streaming `chatCompletion` call:
`intermediateReply` and `done` are the session variables of the source;
`callbacks` is the ordered log of `onProgress` arguments; `resolveCalls`
counts invocations of the promise's `resolve`; `settled` is the promise's
value when resolved (`none` = still pending — the streaming path can never
call `reject`, because the `try/catch` around `fetchEventSource` only sees
synchronous throws and the `fetchEventSource` promise is not awaited);
`stopped` records that a handler rethrow tore the stream down (the
rejection it produces is unhandled and reaches no caller); `unhandled`
holds the status and best-effort parsed body of the error built in
`onopen` when the open status was not 200 — an error that is swallowed
with the un-awaited promise. -/
structure StreamRun where
  intermediateReply : String
  done : Bool
  callbacks : List (Option Json)
  resolveCalls : Nat
  settled : Option String
  stopped : Bool
  unhandled : Option (Nat × Option Json)
deriving DecidableEq, Repr

/-- The state at the start of a streaming call. -/
def initStream : StreamRun :=
  ⟨"", false, [], 0, none, false, none⟩

/-- A `resolve(v)` call with JS promise semantics: counted always,
value-setting only the first time. -/
def resolveOnce (s : StreamRun) (v : String) : StreamRun :=
  { s with
    resolveCalls := s.resolveCalls + 1,
    settled := match s.settled with | none => some v | some w => some w }

/-- The `onmessage` handler for a single event, given `JSON.parse` as an
oracle: no-data and `ping` events are ignored; the `[DONE]` sentinel is
forwarded to `onProgress`, resolves the promise with the accumulated text
and sets `done`; any other data is parsed (a parse throw, or destructuring
a `null`, rethrows through `onerror` and tears the stream down), its
`response` fragment is forwarded to `onProgress` and appended to the
accumulated text. -/
def onmessageStep (jsonParse : String → Option Json) (s : StreamRun)
    (m : EventMessage) : StreamRun :=
  if s.stopped then s
  else if m.data = "" ∨ m.event = "ping" then s
  else if m.data = "[DONE]" then
    let s := { s with callbacks := s.callbacks ++ [some (Json.str "[DONE]")] }
    let s := resolveOnce s s.intermediateReply
    { s with done := true }
  else
    match jsonParse m.data with
    | none => { s with stopped := true }
    | some .null => { s with stopped := true }
    | some j =>
      let msg := jsGet j "response"
      { s with
        callbacks := s.callbacks ++ [msg],
        intermediateReply := s.intermediateReply ++ jsOptToString msg }

/-- One whole streaming session over a given stream delivery: `onopen`
with a non-200 status throws (the error, carrying the status and the
best-effort parsed body, rejects only the un-awaited `fetchEventSource`
promise and is recorded as `unhandled`); otherwise the messages are
processed in order; a stream torn down by a rethrow processes nothing
further; a terminal error event rethrows through `onerror` with the same
unobservable rejection; a normal close runs `onclose`, which — only when
the sentinel was never observed — forwards `[DONE]` to `onProgress` and
resolves with the accumulated text. -/
def runStream (jsonParse : String → Option Json) (input : StreamInput) : StreamRun :=
  if input.status ≠ 200 then
    { initStream with stopped := true,
                      unhandled := some (input.status, jsonParse input.openBody) }
  else
    let s := input.messages.foldl (onmessageStep jsonParse) initStream
    if s.stopped then s
    else
      match input.ending with
      | .errorEvt => { s with stopped := true }
      | .close =>
        if s.done then s
        else
          let s := { s with callbacks := s.callbacks ++ [some (Json.str "[DONE]")] }
          resolveOnce s s.intermediateReply

/-- The two shapes a `chatCompletion` call can take, by `payload.stream`. -/
inductive ChatResult where
  | nonStream (o : CompletionOutcome)
  | stream (r : StreamRun)
deriving DecidableEq, Repr

/-- `chatCompletion`: the request address is
`${this.baseURL}/${payload.model}`; a streaming payload opens an event
stream against it (the delivered stream is the `source` oracle's answer
for that address), a non-streaming payload issues one `axios` POST against
it (the `net` oracle's answer for that address). -/
def chatCompletion (runAddr : String) (payload : ChatPayload)
    (net : String → NetOutcome) (source : String → StreamInput)
    (jsonParse : String → Option Json) : ChatResult :=
  let endpoint := runAddr ++ "/" ++ payload.model
  if payload.stream then .stream (runStream jsonParse (source endpoint))
  else .nonStream (nonStreamHandle (net endpoint))

/-- Projection of a streaming `chatCompletion` result. -/
def streamRunOf : ChatResult → StreamRun
  | .stream r => r
  | .nonStream _ => initStream

/-- Concatenation of the text fragments of a stream, in arrival order. -/
def concatStrings : List String → String
  | [] => ""
  | s :: rest => s ++ concatStrings rest

/-- The value the progress callback receives for the sentinel. -/
def doneSentinel : Option Json := some (Json.str "[DONE]")

/-- Failure of a single model-search request, as the transport and body
shape can produce it: a network-level failure, a non-2xx status (axios
throws), or a 2xx response whose body does not have the expected
`result` array shape. -/
def netFail (net : String → NetOutcome) (endpoint : String) : Prop :=
  net endpoint = .transportError
    ∨ (∃ st bd, net endpoint = .response st bd ∧ (st < 200 ∨ 300 ≤ st))
    ∨ (∃ st bd, net endpoint = .response st bd ∧ 200 ≤ st ∧ st < 300
        ∧ extractModels bd = .error ())

/-- Pairwise shape of a fragment-message list: each message carries data
(not empty, not a `ping`, not the sentinel) that `JSON.parse` turns into an
object whose `response` field is the corresponding text fragment. -/
def msgsMatch (jsonParse : String → Option Json) :
    List EventMessage → List String → Bool
  | [], [] => true
  | m :: ms, f :: fs =>
    (decide (m.data ≠ "") && decide (m.event ≠ "ping") && decide (m.data ≠ "[DONE]")
        && decide (jsonParse m.data = some (Json.obj [("response", Json.str f)])))
      && msgsMatch jsonParse ms fs
  | _, _ => false

/-- A data message that takes the sentinel branch of `onmessage`. -/
def isSentinelMsg (m : EventMessage) : Bool :=
  decide (m.data = "[DONE]") && decide (m.event ≠ "ping")

/-- A message the `onmessage` handler survives: ignored, sentinel, or a
fragment whose data parses to a non-`null` value whose `response` field is
not itself the sentinel value. -/
def fragOk (jsonParse : String → Option Json) (m : EventMessage) : Bool :=
  decide (m.data = "") || decide (m.event = "ping") || decide (m.data = "[DONE]")
    || (match jsonParse m.data with
        | some j => decide (j ≠ Json.null) && decide (jsGet j "response" ≠ doneSentinel)
        | none => false)

/-- C7: For the direct-provider base address
`https://api.cloudflare.com/client/v4/accounts/ACC/ai/v1`, the run address
resolved at client construction ends with `/accounts/ACC/ai/run`: the
trailing `/v1` path segment is truncated and the `/run` suffix appended. -/
theorem direct_provider_run_address :
    resolvedRunAddress "https://api.cloudflare.com/client/v4/accounts/ACC/ai/v1"
        = some "https://api.cloudflare.com/client/v4/accounts/ACC/ai/run"
      ∧ jsEndsWith "https://api.cloudflare.com/client/v4/accounts/ACC/ai/run"
          "/accounts/ACC/ai/run" = true := by
  decide

/-- C8: For the gateway base address
`https://gateway.ai.cloudflare.com/v1/ACC/GW`, the run address resolved at
client construction ends with `/v1/ACC/GW/workers-ai/run`: the fixed-depth
prefix path segments are kept, the literal `workers-ai` segment inserted,
and the `/run` suffix appended. -/
theorem gateway_run_address :
    resolvedRunAddress "https://gateway.ai.cloudflare.com/v1/ACC/GW"
        = some "https://gateway.ai.cloudflare.com/v1/ACC/GW/workers-ai/run"
      ∧ jsEndsWith "https://gateway.ai.cloudflare.com/v1/ACC/GW/workers-ai/run"
          "/v1/ACC/GW/workers-ai/run" = true := by
  decide

/-- C9: For every `fetchModels(baseURL, apiKey)` call (in either source
variant) in which `baseURL` or `apiKey` is empty, the result is the empty
sequence returned immediately, with no network I/O attempted and nothing
logged: a deliberate silent no-op, not an error. -/
theorem fetchModels_empty_args (baseURL apiKey : String) (net : String → NetOutcome)
    (h : baseURL = "" ∨ apiKey = "") :
    fetchModels baseURL apiKey net = ⟨[], false, false⟩
      ∧ fetchModelsPart0 baseURL apiKey net = ⟨[], false, false⟩ := by
  constructor
  · unfold fetchModels
    rw [if_pos h]
  · unfold fetchModelsPart0
    rw [if_pos h]

theorem fetchModels_empty_args_witness :
    fetchModels "" "key" (fun _ => .transportError) = ⟨[], false, false⟩
      ∧ fetchModelsPart0 "https://x" "" (fun _ => .transportError) = ⟨[], false, false⟩ :=
  ⟨(fetchModels_empty_args "" "key" (fun _ => .transportError) (Or.inl rfl)).1,
   (fetchModels_empty_args "https://x" "" (fun _ => .transportError) (Or.inr rfl)).2⟩

/-- C10: For every syntactically valid base address with an unsupported
hostname, client construction succeeds and raises no configuration error:
`formatBaseURL` returns the parsed URL unchanged (no branch of the
hostname switch applies), the resolved run address is that URL with `/run`
appended, and a subsequent non-streaming `chatCompletion` proceeds to
issue the request to that address rather than failing at first use. -/
theorem unsupported_host_passthrough (baseURL : String) (u : URL)
    (hp : parseURL baseURL = some u)
    (h1 : u.hostname ≠ "api.cloudflare.com")
    (h2 : u.hostname ≠ "gateway.ai.cloudflare.com") :
    formatBaseURL baseURL = some u.toString
      ∧ resolvedRunAddress baseURL = some (u.toString ++ "/run")
      ∧ ∀ (payload : ChatPayload) (net : String → NetOutcome)
          (source : String → StreamInput) (jsonParse : String → Option Json),
          payload.stream = false →
          chatCompletion (u.toString ++ "/run") payload net source jsonParse
            = .nonStream (nonStreamHandle (net (u.toString ++ "/run/" ++ payload.model))) := by
  have hf : formatBaseURL baseURL = some u.toString := by
    unfold formatBaseURL
    rw [hp]
    simp [h1, h2]
  refine ⟨hf, ?_, ?_⟩
  · unfold resolvedRunAddress
    rw [hf]
    rfl
  · intro payload net source jsonParse hs
    unfold chatCompletion
    rw [hs]
    have hstr : u.toString ++ "/run" ++ "/" ++ payload.model
        = u.toString ++ "/run/" ++ payload.model := by
      rw [String.append_assoc u.toString "/run" "/"]
      rfl
    simp only [if_neg (by simp : ¬(false = true)), hstr]

theorem unsupported_host_passthrough_witness :
    formatBaseURL "https://example.com/api" = some "https://example.com/api"
      ∧ resolvedRunAddress "https://example.com/api" = some "https://example.com/api/run"
      ∧ chatCompletion "https://example.com/api/run" ⟨"mX", false⟩
          (fun _ => .transportError) (fun _ => ⟨200, "", [], .close⟩) (fun _ => none)
          = .nonStream (.reject none none) := by
  have h := unsupported_host_passthrough "https://example.com/api"
    ⟨"https", "example.com", "/api"⟩ (by decide) (by decide) (by decide)
  exact ⟨h.1, h.2.1,
    (h.2.2 ⟨"mX", false⟩ (fun _ => .transportError) (fun _ => ⟨200, "", [], .close⟩)
      (fun _ => none) rfl).trans rfl⟩

theorem fetchFrom_fail (net : String → NetOutcome) (endpoint : String)
    (h : netFail net endpoint) : fetchFrom net endpoint = ⟨[], true, true⟩ := by
  unfold fetchFrom
  rcases h with h | ⟨st, bd, h, hlt⟩ | ⟨st, bd, h, h1, h2, hex⟩
  · rw [h]
  · rw [h]
    simp [hlt]
  · have hn : ¬(st < 200 ∨ 300 ≤ st) := by omega
    rw [h]
    simp [hn, hex]

/-- C5: For every non-empty `baseURL` and non-empty `apiKey`, `fetchModels`
(in either source variant) never propagates an exception to its caller: on
any failure — malformed base URL, network error, non-success status, or a
response body not matching the expected shape — it logs a diagnostic and
returns the empty sequence. -/
theorem fetchModels_fail_soft (baseURL apiKey : String) (net : String → NetOutcome)
    (hb : baseURL ≠ "") (hk : apiKey ≠ "") :
    (parseURL baseURL = none →
        fetchModels baseURL apiKey net = ⟨[], false, true⟩
          ∧ fetchModelsPart0 baseURL apiKey net = ⟨[], false, true⟩)
      ∧ (∀ endpoint, modelsEndpoint baseURL = some endpoint →
          netFail net endpoint →
          fetchModels baseURL apiKey net = ⟨[], true, true⟩)
      ∧ (∀ endpoint, part0Endpoint baseURL = .ok (some endpoint) →
          netFail net endpoint →
          fetchModelsPart0 baseURL apiKey net = ⟨[], true, true⟩) := by
  have hne : ¬(baseURL = "" ∨ apiKey = "") := by simp [hb, hk]
  refine ⟨?_, ?_, ?_⟩
  · intro hp
    constructor
    · unfold fetchModels
      rw [if_neg hne]
      have : modelsEndpoint baseURL = none := by
        unfold modelsEndpoint formatBaseURL
        rw [hp]
        rfl
      rw [this]
    · unfold fetchModelsPart0
      rw [if_neg hne]
      have : part0Endpoint baseURL = .error () := by
        unfold part0Endpoint
        rw [hp]
      rw [this]
  · intro endpoint hep hfail
    unfold fetchModels
    rw [if_neg hne, hep]
    exact fetchFrom_fail net endpoint hfail
  · intro endpoint hep hfail
    unfold fetchModelsPart0
    rw [if_neg hne, hep]
    exact fetchFrom_fail net endpoint hfail

theorem fetchModels_fail_soft_witness :
    fetchModels "https://x" "k" (fun _ => .transportError) = ⟨[], true, true⟩
      ∧ fetchModelsPart0 "https://api.cloudflare.com/client/v4/accounts/ACC/ai/v1" "k"
          (fun _ => .transportError) = ⟨[], true, true⟩ := by
  constructor
  · exact (fetchModels_fail_soft "https://x" "k" (fun _ => .transportError)
      (by decide) (by decide)).2.1 "https://x//models/search" rfl (Or.inl rfl)
  · exact (fetchModels_fail_soft "https://api.cloudflare.com/client/v4/accounts/ACC/ai/v1"
      "k" (fun _ => .transportError) (by decide) (by decide)).2.2
      "https://api.cloudflare.com/client/v4/accounts/ACC/ai/models/search"
      rfl (Or.inl rfl)

/-- C6 counterexample: for the unsupported-hostname base address
`https://example.com/api`, the `fetchModels` of `WorkersAIClient.js` does
*not* return an empty sequence when the server at the passthrough address
answers with a text-generation model list — `formatBaseURL` leaves the
URL unchanged and the request is attempted, contradicting the claim that
every unsupported hostname yields an empty result without a usable
address. -/
theorem models_unsupported_counterexample :
    (∃ u, parseURL "https://example.com/api" = some u
        ∧ u.hostname ≠ "api.cloudflare.com" ∧ u.hostname ≠ "gateway.ai.cloudflare.com")
      ∧ (fetchModels "https://example.com/api" "k"
          (fun _ => .response 200 (Json.obj [("result", Json.arr [Json.obj
            [("name", Json.str "m"),
             ("task", Json.obj [("name", Json.str "Text Generation")])]])]))).models
        ≠ [] :=
  ⟨⟨⟨"https", "example.com", "/api"⟩, by decide, by decide, by decide⟩, by decide⟩

/-- C6 amended: for every base address whose hostname is neither the
direct provider host nor the gateway host, the `fetchModels` of the
unnamed variant file returns the empty sequence immediately — no network
I/O, no logging, no failure; the `fetchModels` of `WorkersAIClient.js`,
by contrast, passes the address through unchanged and does attempt the
request (its result then depends on what that request returns). -/
theorem unsupported_host_models (baseURL apiKey : String) (net : String → NetOutcome)
    (u : URL) (hb : baseURL ≠ "") (hk : apiKey ≠ "")
    (hp : parseURL baseURL = some u)
    (h1 : u.hostname ≠ "api.cloudflare.com")
    (h2 : u.hostname ≠ "gateway.ai.cloudflare.com") :
    fetchModelsPart0 baseURL apiKey net = ⟨[], false, false⟩
      ∧ (fetchModels baseURL apiKey net).io = true := by
  have hne : ¬(baseURL = "" ∨ apiKey = "") := by simp [hb, hk]
  constructor
  · unfold fetchModelsPart0
    rw [if_neg hne]
    have : part0Endpoint baseURL = .ok none := by
      unfold part0Endpoint
      rw [hp]
      simp [h1, h2]
    rw [this]
  · unfold fetchModels
    rw [if_neg hne]
    have hme : modelsEndpoint baseURL = some (u.toString ++ "/models/search") := by
      unfold modelsEndpoint formatBaseURL
      rw [hp]
      simp [h1, h2]
    rw [hme]
    show (fetchFrom net (u.toString ++ "/models/search")).io = true
    unfold fetchFrom
    cases hnet : net (u.toString ++ "/models/search") with
    | transportError => rfl
    | response st bd =>
      by_cases hlt : st < 200 ∨ 300 ≤ st
      · simp [hlt]
      · simp only [hlt, if_false]
        cases hex : extractModels bd <;> rfl

theorem unsupported_host_models_witness :
    fetchModelsPart0 "https://example.com/api" "k" (fun _ => .transportError)
        = ⟨[], false, false⟩
      ∧ (fetchModels "https://example.com/api" "k" (fun _ => .transportError)).io = true :=
  unsupported_host_models "https://example.com/api" "k" (fun _ => .transportError)
    ⟨"https", "example.com", "/api"⟩ (by decide) (by decide) (by decide)
    (by decide) (by decide)

/-- C4 counterexample: a non-streaming completion whose transport fails at
the network level (no HTTP response at all) rejects with the bare
transport error — there is no rejection carrying an HTTP status and a
response body at this input, contrary to the claim that every failing
outcome, transport failure included, rejects with an error carrying the
HTTP status and the raw response body. -/
theorem nonStream_transport_counterexample :
    ¬ ∃ st bd, chatCompletion "addr" ⟨"m", false⟩ (fun _ => NetOutcome.transportError)
        (fun _ => ⟨200, "", [], .close⟩) (fun _ => none)
        = .nonStream (.reject (some st) (some bd)) := by
  rintro ⟨st, bd, h⟩
  have he : chatCompletion "addr" ⟨"m", false⟩ (fun _ => NetOutcome.transportError)
      (fun _ => ⟨200, "", [], .close⟩) (fun _ => none)
      = .nonStream (.reject none none) := rfl
  rw [he] at h
  simp at h

/-- C4 amended: for every non-streaming chat completion, the promise
resolves with the value of the response body's nested `result.response`
field if and only if the HTTP status is exactly 200, the body's success
flag is truthy, and the body carries a non-null `result` field; a received
response that fails that condition (non-200 status — including non-2xx
statuses rejected by axios itself — or a falsy/absent success flag)
rejects with an error carrying that HTTP status and the raw body; a
transport failure rejects with the bare transport error, and a
200/success body lacking a usable `result` rejects with a bare type
error — neither of those two rejections carries a status or body.  No
retry occurs: the outcome is a function of the single response. -/
theorem chatCompletion_non_streaming (runAddr : String) (payload : ChatPayload)
    (net : String → NetOutcome) (source : String → StreamInput)
    (jsonParse : String → Option Json) (hs : payload.stream = false) :
    (net (runAddr ++ "/" ++ payload.model) = .transportError →
        chatCompletion runAddr payload net source jsonParse
          = .nonStream (.reject none none))
      ∧ (∀ st bd, net (runAddr ++ "/" ++ payload.model) = .response st bd →
          ¬(st = 200 ∧ successFlag bd = true) →
          chatCompletion runAddr payload net source jsonParse
            = .nonStream (.reject (some st) (some bd)))
      ∧ (∀ bd r, net (runAddr ++ "/" ++ payload.model) = .response 200 bd →
          successFlag bd = true → jsGet bd "result" = some r → r ≠ .null →
          chatCompletion runAddr payload net source jsonParse
            = .nonStream (.resolve (jsGet r "response")))
      ∧ (∀ bd, net (runAddr ++ "/" ++ payload.model) = .response 200 bd →
          successFlag bd = true →
          (jsGet bd "result" = none ∨ jsGet bd "result" = some .null) →
          chatCompletion runAddr payload net source jsonParse
            = .nonStream (.reject none none))
      ∧ ((∃ v, chatCompletion runAddr payload net source jsonParse
              = .nonStream (.resolve v))
          ↔ (∃ bd r, net (runAddr ++ "/" ++ payload.model) = .response 200 bd
              ∧ successFlag bd = true ∧ jsGet bd "result" = some r ∧ r ≠ .null)) := by
  have hcc : chatCompletion runAddr payload net source jsonParse
      = .nonStream (nonStreamHandle (net (runAddr ++ "/" ++ payload.model))) := by
    unfold chatCompletion
    rw [hs]
    simp
  have h1 : net (runAddr ++ "/" ++ payload.model) = .transportError →
      chatCompletion runAddr payload net source jsonParse
        = .nonStream (.reject none none) := by
    intro h
    rw [hcc, h]
    rfl
  have h2 : ∀ st bd, net (runAddr ++ "/" ++ payload.model) = .response st bd →
      ¬(st = 200 ∧ successFlag bd = true) →
      chatCompletion runAddr payload net source jsonParse
        = .nonStream (.reject (some st) (some bd)) := by
    intro st bd h hne
    rw [hcc, h]
    unfold nonStreamHandle
    by_cases hlt : st < 200 ∨ 300 ≤ st
    · simp [hlt]
    · have hcond : st ≠ 200 ∨ successFlag bd = false := by
        rcases not_and_or.mp hne with h | h
        · exact Or.inl h
        · exact Or.inr (by simpa using h)
      simp [hlt, hcond]
  have h3 : ∀ bd r, net (runAddr ++ "/" ++ payload.model) = .response 200 bd →
      successFlag bd = true → jsGet bd "result" = some r → r ≠ .null →
      chatCompletion runAddr payload net source jsonParse
        = .nonStream (.resolve (jsGet r "response")) := by
    intro bd r h hsf hres hnull
    rw [hcc, h]
    simp only [nonStreamHandle]
    rw [if_neg (by decide : ¬((200 : Nat) < 200 ∨ 300 ≤ 200))]
    rw [if_neg (by simp [hsf] : ¬((200 : Nat) ≠ 200 ∨ successFlag bd = false))]
    rw [hres]
    cases r with
    | null => exact absurd rfl hnull
    | bool b => rfl
    | num n => rfl
    | str s => rfl
    | arr xs => rfl
    | obj fs => rfl
  have h4 : ∀ bd, net (runAddr ++ "/" ++ payload.model) = .response 200 bd →
      successFlag bd = true →
      (jsGet bd "result" = none ∨ jsGet bd "result" = some .null) →
      chatCompletion runAddr payload net source jsonParse
        = .nonStream (.reject none none) := by
    intro bd h hsf hres
    rw [hcc, h]
    simp only [nonStreamHandle]
    rw [if_neg (by decide : ¬((200 : Nat) < 200 ∨ 300 ≤ 200))]
    rw [if_neg (by simp [hsf] : ¬((200 : Nat) ≠ 200 ∨ successFlag bd = false))]
    rcases hres with hres | hres <;> rw [hres]
  refine ⟨h1, h2, h3, h4, ?_, ?_⟩
  · rintro ⟨v, hv⟩
    rw [hcc] at hv
    have hv' : nonStreamHandle (net (runAddr ++ "/" ++ payload.model))
        = .resolve v := by
      exact ChatResult.nonStream.inj hv
    cases hnet : net (runAddr ++ "/" ++ payload.model) with
    | transportError =>
      rw [hnet] at hv'
      exact absurd hv' (by simp [nonStreamHandle])
    | response st bd =>
      rw [hnet] at hv'
      simp only [nonStreamHandle] at hv'
      by_cases hlt : st < 200 ∨ 300 ≤ st
      · rw [if_pos hlt] at hv'
        exact absurd hv' (by simp)
      · rw [if_neg hlt] at hv'
        by_cases hcond : st ≠ 200 ∨ successFlag bd = false
        · rw [if_pos hcond] at hv'
          exact absurd hv' (by simp)
        · rw [if_neg hcond] at hv'
          have hst : st = 200 := by
            rcases not_or.mp hcond with ⟨ha, _⟩
            simpa using ha
          have hsf : successFlag bd = true := by
            rcases not_or.mp hcond with ⟨_, hb⟩
            simpa using hb
          cases hres : jsGet bd "result" with
          | none =>
            rw [hres] at hv'
            exact absurd hv' (by simp)
          | some r =>
            rw [hres] at hv'
            cases r with
            | null => exact absurd hv' (by simp)
            | bool b => exact ⟨bd, .bool b, (by rw [hst]), hsf, hres, by simp⟩
            | num n => exact ⟨bd, .num n, (by rw [hst]), hsf, hres, by simp⟩
            | str s => exact ⟨bd, .str s, (by rw [hst]), hsf, hres, by simp⟩
            | arr xs => exact ⟨bd, .arr xs, (by rw [hst]), hsf, hres, by simp⟩
            | obj fs => exact ⟨bd, .obj fs, (by rw [hst]), hsf, hres, by simp⟩
  · rintro ⟨bd, r, h, hsf, hres, hnull⟩
    exact ⟨jsGet r "response", h3 bd r h hsf hres hnull⟩

theorem fold_fragments (jsonParse : String → Option Json) :
    ∀ (ms : List EventMessage) (fs : List String) (s : StreamRun),
      s.stopped = false → msgsMatch jsonParse ms fs = true →
      ms.foldl (onmessageStep jsonParse) s
        = ⟨s.intermediateReply ++ concatStrings fs, s.done,
           s.callbacks ++ fs.map (fun f => some (Json.str f)),
           s.resolveCalls, s.settled, s.stopped, s.unhandled⟩ := by
  intro ms
  induction ms with
  | nil =>
    intro fs s hs hm
    cases fs with
    | nil =>
      simp [concatStrings]
    | cons f fs => simp [msgsMatch] at hm
  | cons m ms ih =>
    intro fs s hs hm
    cases fs with
    | nil => simp [msgsMatch] at hm
    | cons f fs =>
      simp only [msgsMatch, Bool.and_eq_true, decide_eq_true_eq] at hm
      obtain ⟨⟨⟨⟨hd, he⟩, hdn⟩, hp⟩, hrest⟩ := hm
      rw [List.foldl_cons]
      have hstep : onmessageStep jsonParse s m
          = ⟨s.intermediateReply ++ f, s.done,
             s.callbacks ++ [some (Json.str f)],
             s.resolveCalls, s.settled, s.stopped, s.unhandled⟩ := by
        unfold onmessageStep
        rw [if_neg (by simp [hs]), if_neg (by simp [hd, he]), if_neg hdn, hp]
        rfl
      rw [hstep]
      rw [ih fs ⟨s.intermediateReply ++ f, s.done,
            s.callbacks ++ [some (Json.str f)],
            s.resolveCalls, s.settled, s.stopped, s.unhandled⟩ hs hrest]
      simp [concatStrings, List.append_assoc, String.append_assoc]

/-- `runStream` on a 200-status close-terminated stream, unfolded to its
message fold plus the `onclose` step. -/
theorem runStream_status200 (jsonParse : String → Option Json)
    (openBody : String) (msgs : List EventMessage) :
    runStream jsonParse ⟨200, openBody, msgs, .close⟩
      = (if (msgs.foldl (onmessageStep jsonParse) initStream).stopped then
           msgs.foldl (onmessageStep jsonParse) initStream
         else if (msgs.foldl (onmessageStep jsonParse) initStream).done then
           msgs.foldl (onmessageStep jsonParse) initStream
         else
           resolveOnce
             { msgs.foldl (onmessageStep jsonParse) initStream with
               callbacks := (msgs.foldl (onmessageStep jsonParse) initStream).callbacks
                 ++ [some (Json.str "[DONE]")] }
             (msgs.foldl (onmessageStep jsonParse) initStream).intermediateReply) := rfl

/-- C1: For every streaming chat completion whose event stream delivers a
sequence of data messages each containing a JSON object with a `response`
text fragment, followed by the sentinel message `[DONE]`, the returned
promise resolves with the concatenation of all fragments in arrival order,
and the progress callback is invoked once per fragment, in arrival order,
with exactly that fragment, and then once with `[DONE]`. -/
theorem streaming_fragments_resolve (runAddr : String) (payload : ChatPayload)
    (net : String → NetOutcome) (source : String → StreamInput)
    (jsonParse : String → Option Json) (fs : List String) (ms : List EventMessage)
    (openBody : String)
    (hs : payload.stream = true)
    (hinput : source (runAddr ++ "/" ++ payload.model)
        = ⟨200, openBody, ms ++ [⟨"", "[DONE]"⟩], .close⟩)
    (hm : msgsMatch jsonParse ms fs = true) :
    streamRunOf (chatCompletion runAddr payload net source jsonParse)
      = ⟨concatStrings fs, true,
         fs.map (fun f => some (Json.str f)) ++ [doneSentinel],
         1, some (concatStrings fs), false, none⟩ := by
  have hfold : (ms ++ [(⟨"", "[DONE]"⟩ : EventMessage)]).foldl
        (onmessageStep jsonParse) initStream
      = ⟨concatStrings fs, true,
         fs.map (fun f => some (Json.str f)) ++ [doneSentinel],
         1, some (concatStrings fs), false, none⟩ := by
    rw [List.foldl_append]
    rw [fold_fragments jsonParse ms fs initStream rfl hm]
    rfl
  have hcc : streamRunOf (chatCompletion runAddr payload net source jsonParse)
      = runStream jsonParse ⟨200, openBody, ms ++ [⟨"", "[DONE]"⟩], .close⟩ := by
    unfold chatCompletion
    rw [if_pos hs, hinput]
    rfl
  rw [hcc, runStream_status200, hfold]
  rfl

theorem streaming_fragments_resolve_witness :
    streamRunOf (chatCompletion "a" ⟨"m", true⟩ (fun _ => .transportError)
        (fun _ => ⟨200, "", [⟨"", "data1"⟩, ⟨"", "data2"⟩, ⟨"", "[DONE]"⟩], .close⟩)
        (fun s => if s = "data1" then some (Json.obj [("response", Json.str "Hi")])
          else if s = "data2" then some (Json.obj [("response", Json.str " there")])
          else none))
      = ⟨"Hi there", true,
         [some (Json.str "Hi"), some (Json.str " there"), doneSentinel],
         1, some "Hi there", false, none⟩ := by
  have h := streaming_fragments_resolve "a" ⟨"m", true⟩ (fun _ => .transportError)
    (fun _ => ⟨200, "", [⟨"", "data1"⟩, ⟨"", "data2"⟩, ⟨"", "[DONE]"⟩], .close⟩)
    (fun s => if s = "data1" then some (Json.obj [("response", Json.str "Hi")])
      else if s = "data2" then some (Json.obj [("response", Json.str " there")])
      else none)
    ["Hi", " there"] [⟨"", "data1"⟩, ⟨"", "data2"⟩] "" rfl rfl (by decide)
  exact h

theorem chatCompletion_non_streaming_witness :
    chatCompletion "a" ⟨"m", false⟩
        (fun _ => .response 200 (Json.obj [("success", Json.bool true),
          ("result", Json.obj [("response", Json.str "Hello")])]))
        (fun _ => ⟨200, "", [], .close⟩) (fun _ => none)
      = .nonStream (.resolve (some (Json.str "Hello"))) := by
  have h := (chatCompletion_non_streaming "a" ⟨"m", false⟩
      (fun _ => .response 200 (Json.obj [("success", Json.bool true),
        ("result", Json.obj [("response", Json.str "Hello")])]))
      (fun _ => ⟨200, "", [], .close⟩) (fun _ => none) rfl).2.2.1
      (Json.obj [("success", Json.bool true),
        ("result", Json.obj [("response", Json.str "Hello")])])
      (Json.obj [("response", Json.str "Hello")])
      rfl (by decide) (by decide) (by decide)
  rw [h]
  rfl

theorem fold_sentinel_count (jsonParse : String → Option Json) :
    ∀ (ms : List EventMessage) (s : StreamRun),
      s.stopped = false → (∀ m ∈ ms, fragOk jsonParse m = true) →
      ((ms.foldl (onmessageStep jsonParse) s).stopped = false
        ∧ (ms.foldl (onmessageStep jsonParse) s).resolveCalls
            = s.resolveCalls + ms.countP isSentinelMsg
        ∧ (ms.foldl (onmessageStep jsonParse) s).callbacks.countP
              (fun c => decide (c = doneSentinel))
            = s.callbacks.countP (fun c => decide (c = doneSentinel))
                + ms.countP isSentinelMsg
        ∧ (ms.foldl (onmessageStep jsonParse) s).done
            = (s.done || decide (1 ≤ ms.countP isSentinelMsg))
        ∧ (ms.foldl (onmessageStep jsonParse) s).settled.isSome
            = (s.settled.isSome || decide (1 ≤ ms.countP isSentinelMsg))) := by
  intro ms
  induction ms with
  | nil =>
    intro s hs _
    simp [hs]
  | cons m ms ih =>
    intro s hs hall
    have hm := hall m (List.mem_cons_self m ms)
    have hrest : ∀ m' ∈ ms, fragOk jsonParse m' = true :=
      fun m' hm' => hall m' (List.mem_cons_of_mem m hm')
    by_cases hig : m.data = "" ∨ m.event = "ping"
    · have hstep : onmessageStep jsonParse s m = s := by
        unfold onmessageStep
        rw [if_neg (by simp [hs]), if_pos hig]
      have hsent : isSentinelMsg m = false := by
        unfold isSentinelMsg
        rcases hig with h | h
        · simp [h]
        · simp [h]
      have hcnt : (m :: ms).countP isSentinelMsg = ms.countP isSentinelMsg := by
        simp [List.countP_cons, hsent]
      rw [List.foldl_cons, hstep, hcnt]
      exact ih s hs hrest
    · have hd : m.data ≠ "" := fun h => hig (Or.inl h)
      have he : m.event ≠ "ping" := fun h => hig (Or.inr h)
      by_cases hdone : m.data = "[DONE]"
      · have hsent : isSentinelMsg m = true := by
          unfold isSentinelMsg
          simp [hdone, he]
        have hcnt : (m :: ms).countP isSentinelMsg = ms.countP isSentinelMsg + 1 := by
          simp [List.countP_cons, hsent]
        have hstep : onmessageStep jsonParse s m
            = ⟨s.intermediateReply, true, s.callbacks ++ [doneSentinel],
               s.resolveCalls + 1,
               (match s.settled with
                | none => some s.intermediateReply
                | some w => some w),
               s.stopped, s.unhandled⟩ := by
          unfold onmessageStep resolveOnce
          rw [if_neg (by simp [hs]), if_neg hig, if_pos hdone]
          rfl
        rw [List.foldl_cons, hstep, hcnt]
        obtain ⟨h1, h2, h3, h4, h5⟩ :=
          ih ⟨s.intermediateReply, true, s.callbacks ++ [doneSentinel],
              s.resolveCalls + 1,
              (match s.settled with
               | none => some s.intermediateReply
               | some w => some w),
              s.stopped, s.unhandled⟩ hs hrest
        refine ⟨h1, ?_, ?_, ?_, ?_⟩
        · rw [h2]
          show s.resolveCalls + 1 + ms.countP isSentinelMsg
              = s.resolveCalls + (ms.countP isSentinelMsg + 1)
          omega
        · rw [h3]
          show (s.callbacks ++ [doneSentinel]).countP (fun c => decide (c = doneSentinel))
                + ms.countP isSentinelMsg
              = s.callbacks.countP (fun c => decide (c = doneSentinel))
                + (ms.countP isSentinelMsg + 1)
          rw [List.countP_append]
          have h1c : List.countP (fun c => decide (c = doneSentinel)) [doneSentinel] = 1 := by
            decide
          rw [h1c]
          omega
        · rw [h4]
          show (true || decide (1 ≤ ms.countP isSentinelMsg))
              = (s.done || decide (1 ≤ ms.countP isSentinelMsg + 1))
          rw [decide_eq_true (by omega : 1 ≤ ms.countP isSentinelMsg + 1)]
          simp
        · rw [h5]
          show ((match s.settled with
                 | none => some s.intermediateReply
                 | some w => some w).isSome
                || decide (1 ≤ ms.countP isSentinelMsg))
              = (s.settled.isSome || decide (1 ≤ ms.countP isSentinelMsg + 1))
          have hsome : (match s.settled with
              | none => some s.intermediateReply
              | some w => some w).isSome = true := by
            cases s.settled <;> rfl
          rw [hsome, decide_eq_true (by omega : 1 ≤ ms.countP isSentinelMsg + 1)]
          simp
      · have hsent : isSentinelMsg m = false := by
          unfold isSentinelMsg
          simp [hdone]
        have hcnt : (m :: ms).countP isSentinelMsg = ms.countP isSentinelMsg := by
          simp [List.countP_cons, hsent]
        unfold fragOk at hm
        rw [decide_eq_false hd, decide_eq_false he, decide_eq_false hdone] at hm
        simp only [Bool.false_or] at hm
        cases hj : jsonParse m.data with
        | none =>
          rw [hj] at hm
          exact absurd hm (by simp)
        | some j =>
          rw [hj] at hm
          simp only [Bool.and_eq_true, decide_eq_true_eq] at hm
          obtain ⟨hnull, hresp⟩ := hm
          have hstep : onmessageStep jsonParse s m
              = ⟨s.intermediateReply ++ jsOptToString (jsGet j "response"), s.done,
                 s.callbacks ++ [jsGet j "response"],
                 s.resolveCalls, s.settled, s.stopped, s.unhandled⟩ := by
            unfold onmessageStep
            rw [if_neg (by simp [hs]), if_neg hig, if_neg hdone, hj]
            cases j with
            | null => exact absurd rfl hnull
            | bool b => rfl
            | num n => rfl
            | str t => rfl
            | arr xs => rfl
            | obj fl => rfl
          rw [List.foldl_cons, hstep, hcnt]
          obtain ⟨h1, h2, h3, h4, h5⟩ :=
            ih ⟨s.intermediateReply ++ jsOptToString (jsGet j "response"), s.done,
                s.callbacks ++ [jsGet j "response"],
                s.resolveCalls, s.settled, s.stopped, s.unhandled⟩ hs hrest
          refine ⟨h1, h2, ?_, h4, h5⟩
          rw [h3]
          show (s.callbacks ++ [jsGet j "response"]).countP (fun c => decide (c = doneSentinel))
                + ms.countP isSentinelMsg
              = s.callbacks.countP (fun c => decide (c = doneSentinel))
                + ms.countP isSentinelMsg
          rw [List.countP_append]
          have h0c : List.countP (fun c => decide (c = doneSentinel)) [jsGet j "response"] = 0 := by
            simp [hresp]
          rw [h0c]
          omega

/-- C2 counterexample: an event stream that delivers the `[DONE]` data
message twice makes `onmessage` forward the sentinel to the progress
callback twice (and call `resolve` twice), contradicting the claim that
the callback receives the sentinel exactly once on every streaming
completion. -/
theorem sentinel_twice_counterexample :
    ¬ ((streamRunOf (chatCompletion "a" ⟨"m", true⟩ (fun _ => .transportError)
          (fun _ => ⟨200, "", [⟨"", "[DONE]"⟩, ⟨"", "[DONE]"⟩], .close⟩)
          (fun _ => none))).callbacks.countP (fun c => decide (c = doneSentinel)) = 1)
      ∧ (streamRunOf (chatCompletion "a" ⟨"m", true⟩ (fun _ => .transportError)
          (fun _ => ⟨200, "", [⟨"", "[DONE]"⟩, ⟨"", "[DONE]"⟩], .close⟩)
          (fun _ => none))).callbacks.countP (fun c => decide (c = doneSentinel)) = 2
      ∧ (streamRunOf (chatCompletion "a" ⟨"m", true⟩ (fun _ => .transportError)
          (fun _ => ⟨200, "", [⟨"", "[DONE]"⟩, ⟨"", "[DONE]"⟩], .close⟩)
          (fun _ => none))).resolveCalls = 2 := by
  refine ⟨by decide, by decide, by decide⟩

/-- C2 amended: for every streaming chat completion whose stream opens
with status 200 and terminates by close, delivering at most one sentinel
data message and otherwise only well-formed fragment messages (parseable,
non-null, and not masquerading as the sentinel value), the progress
callback receives the sentinel exactly once and `resolve` is called
exactly once, so the promise is resolved; moreover, whatever the messages
were: if the stream closes before the sentinel was observed, `onclose`
invokes the callback with the sentinel and resolves with the text
accumulated so far, and if the sentinel was already observed, closing
performs no further callback invocation and no further settlement
(idempotent close). -/
theorem streaming_sentinel_once (runAddr : String) (payload : ChatPayload)
    (net : String → NetOutcome) (source : String → StreamInput)
    (jsonParse : String → Option Json) (openBody : String)
    (msgs : List EventMessage)
    (hs : payload.stream = true)
    (hinput : source (runAddr ++ "/" ++ payload.model) = ⟨200, openBody, msgs, .close⟩)
    (hok : ∀ m ∈ msgs, fragOk jsonParse m = true)
    (hcnt : msgs.countP isSentinelMsg ≤ 1) :
    ((streamRunOf (chatCompletion runAddr payload net source jsonParse)).callbacks.countP
        (fun c => decide (c = doneSentinel)) = 1
      ∧ (streamRunOf (chatCompletion runAddr payload net source jsonParse)).resolveCalls = 1
      ∧ (streamRunOf (chatCompletion runAddr payload net source jsonParse)).settled.isSome
          = true
      ∧ ((msgs.foldl (onmessageStep jsonParse) initStream).done = false →
          (streamRunOf (chatCompletion runAddr payload net source jsonParse)).callbacks
              = (msgs.foldl (onmessageStep jsonParse) initStream).callbacks ++ [doneSentinel]
            ∧ (streamRunOf (chatCompletion runAddr payload net source jsonParse)).settled
              = some (msgs.foldl (onmessageStep jsonParse) initStream).intermediateReply)
      ∧ ((msgs.foldl (onmessageStep jsonParse) initStream).done = true →
          streamRunOf (chatCompletion runAddr payload net source jsonParse)
            = msgs.foldl (onmessageStep jsonParse) initStream)) := by
  have hcc : streamRunOf (chatCompletion runAddr payload net source jsonParse)
      = runStream jsonParse ⟨200, openBody, msgs, .close⟩ := by
    unfold chatCompletion
    rw [if_pos hs, hinput]
    rfl
  rw [hcc, runStream_status200]
  obtain ⟨hstop, hrc, hcb, hdone, hsettle⟩ :=
    fold_sentinel_count jsonParse msgs initStream rfl hok
  rcases Nat.le_one_iff_eq_zero_or_eq_one.mp hcnt with hc | hc
  · have hrc1 : (msgs.foldl (onmessageStep jsonParse) initStream).resolveCalls = 0 :=
      hrc.trans (by rw [hc]; rfl)
    have hcb1 : (msgs.foldl (onmessageStep jsonParse) initStream).callbacks.countP
        (fun c => decide (c = doneSentinel)) = 0 := hcb.trans (by rw [hc]; rfl)
    have hdone1 : (msgs.foldl (onmessageStep jsonParse) initStream).done = false :=
      hdone.trans (by rw [hc]; rfl)
    have hsettle1 : (msgs.foldl (onmessageStep jsonParse) initStream).settled.isSome
        = false := hsettle.trans (by rw [hc]; rfl)
    have hnone : (msgs.foldl (onmessageStep jsonParse) initStream).settled = none := by
      cases hF : (msgs.foldl (onmessageStep jsonParse) initStream).settled
      · rfl
      · rw [hF] at hsettle1
        simp at hsettle1
    rw [if_neg (by simp [hstop]), if_neg (by simp [hdone1])]
    refine ⟨?_, ?_, ?_, ?_, ?_⟩
    · show ((msgs.foldl (onmessageStep jsonParse) initStream).callbacks
          ++ [some (Json.str "[DONE]")]).countP (fun c => decide (c = doneSentinel)) = 1
      rw [List.countP_append, hcb1]
      decide
    · show (msgs.foldl (onmessageStep jsonParse) initStream).resolveCalls + 1 = 1
      rw [hrc1]
    · show (match (msgs.foldl (onmessageStep jsonParse) initStream).settled with
          | none => some (msgs.foldl (onmessageStep jsonParse) initStream).intermediateReply
          | some w => some w).isSome = true
      rw [hnone]
      rfl
    · intro _
      constructor
      · rfl
      · show (match (msgs.foldl (onmessageStep jsonParse) initStream).settled with
            | none => some (msgs.foldl (onmessageStep jsonParse) initStream).intermediateReply
            | some w => some w)
            = some (msgs.foldl (onmessageStep jsonParse) initStream).intermediateReply
        rw [hnone]
    · intro hcontra
      rw [hdone1] at hcontra
      exact absurd hcontra (by simp)
  · have hrc1 : (msgs.foldl (onmessageStep jsonParse) initStream).resolveCalls = 1 :=
      hrc.trans (by rw [hc]; rfl)
    have hcb1 : (msgs.foldl (onmessageStep jsonParse) initStream).callbacks.countP
        (fun c => decide (c = doneSentinel)) = 1 := hcb.trans (by rw [hc]; rfl)
    have hdone1 : (msgs.foldl (onmessageStep jsonParse) initStream).done = true :=
      hdone.trans (by rw [hc]; rfl)
    have hsettle1 : (msgs.foldl (onmessageStep jsonParse) initStream).settled.isSome
        = true := hsettle.trans (by rw [hc]; rfl)
    rw [if_neg (by simp [hstop]), if_pos hdone1]
    refine ⟨hcb1, hrc1, hsettle1, ?_, ?_⟩
    · intro hcontra
      rw [hdone1] at hcontra
      exact absurd hcontra (by simp)
    · intro _
      rfl

theorem streaming_sentinel_once_witness :
    (streamRunOf (chatCompletion "a" ⟨"m", true⟩ (fun _ => .transportError)
        (fun _ => ⟨200, "", [⟨"", "d1"⟩, ⟨"", "[DONE]"⟩], .close⟩)
        (fun t => if t = "d1" then some (Json.obj [("response", Json.str "Hi")])
          else none))).callbacks.countP (fun c => decide (c = doneSentinel)) = 1
      ∧ (streamRunOf (chatCompletion "a" ⟨"m", true⟩ (fun _ => .transportError)
          (fun _ => ⟨200, "", [⟨"", "d1"⟩, ⟨"", "[DONE]"⟩], .close⟩)
          (fun t => if t = "d1" then some (Json.obj [("response", Json.str "Hi")])
            else none))).resolveCalls = 1 := by
  have h := streaming_sentinel_once "a" ⟨"m", true⟩ (fun _ => .transportError)
    (fun _ => ⟨200, "", [⟨"", "d1"⟩, ⟨"", "[DONE]"⟩], .close⟩)
    (fun t => if t = "d1" then some (Json.obj [("response", Json.str "Hi")])
      else none)
    "" [⟨"", "d1"⟩, ⟨"", "[DONE]"⟩] rfl rfl (by decide) (by decide)
  exact ⟨h.1, h.2.1⟩

/-- C3 evaluated at its failing input: a streaming completion whose event
stream opens with HTTP 500 never settles the promise at all — the error
built in `onopen` (which does carry the status and the best-effort parsed
body) rejects only the `fetchEventSource` promise, which nothing awaits,
so `chatCompletion`'s own promise stays pending (`settled = none`, zero
`resolve` calls, the error swallowed as `unhandled`) and the progress
callback is never invoked. -/
theorem streaming_open_failure_hangs :
    chatCompletion "a" ⟨"m", true⟩ (fun _ => .transportError)
        (fun _ => ⟨500, "errbody", [⟨"", "ignored"⟩], .close⟩)
        (fun t => if t = "errbody" then some (Json.obj [("code", Json.num 1)]) else none)
      = .stream ⟨"", false, [], 0, none, true,
          some (500, some (Json.obj [("code", Json.num 1)]))⟩ := by
  decide

end WorkersAI
